import Mathlib

/-!
Shallow embedding of the CLI task manager core (src/task.rs, src/manager.rs,
src/error.rs).  Timestamps (`chrono::DateTime<Utc>`) are modelled as `Nat`;
UUIDs are modelled as the `String` keys the manager actually stores
(`task.id.to_string()`).  The nondeterministic inputs of the Rust code
(`Utc::now()`, `Uuid::new_v4()`) become explicit parameters.  Methods taking
`&mut self` become state-passing functions that return the post-state in both
the success and the error case, so that partial mutations before an early
`?`-return are visible.
-/

namespace TaskMgr

/-- Priority levels for tasks (src/task.rs, enum Priority), ordered
Low < Medium < High < Critical via their discriminants. -/
inductive Priority where
  | low
  | medium
  | high
  | critical
deriving DecidableEq, Repr

/-- Discriminant of a priority (Low = 1 .. Critical = 4), used as the sort key
that Rust's derived `Ord` on `Priority` compares. -/
def Priority.toNat : Priority → Nat
  | .low => 1
  | .medium => 2
  | .high => 3
  | .critical => 4

/-- Status of a task (src/task.rs, enum TaskStatus). -/
inductive TaskStatus where
  | todo
  | inProgress
  | done
  | cancelled
deriving DecidableEq, Repr

/-- Tri-state update directive (src/task.rs, enum UpdateValue): keep the
current value, clear it, or set a new one. -/
inductive UpdateValue (α : Type) where
  | keep
  | clear
  | set (a : α)
deriving DecidableEq, Repr

/-- The task record (src/task.rs, struct Task).  `id` is the string form of
the UUID; timestamps are abstract `Nat` instants. -/
structure Task where
  id : String
  title : String
  description : Option String
  priority : Priority
  status : TaskStatus
  category : Option String
  dueDate : Option Nat
  createdAt : Nat
  updatedAt : Nat
  completedAt : Option Nat
deriving DecidableEq, Repr

/-- Field-level validation messages, from the `#[validate(length(...))]`
attributes on `Task` and `TaskError::from_validation_errors` (src/error.rs),
which renders each failing field as "field: message".  Fields are listed in
declaration order (the Rust `field_errors()` map has no fixed order; this is
one deterministic refinement of it). -/
def Task.validationErrors (t : Task) : List String :=
  (if t.title.length < 1 || t.title.length > 200 then
    ["title: Title must be between 1-200 characters"] else [])
  ++ (match t.description with
      | some d => if d.length > 2000 then
          ["description: Description must not exceed 2000 characters"] else []
      | none => [])
  ++ (match t.category with
      | some c => if c.length > 50 then
          ["category: Category must not exceed 50 characters"] else []
      | none => [])

/-- Error type (src/error.rs, enum TaskError); only the variants the embedded
operations can produce are modelled. -/
inductive TaskError where
  | taskNotFound (id : String)
  | validationError (msg : String)
  | operationNotAllowed (msg : String)
deriving DecidableEq, Repr

/-- Validation step: `task.validate().map_err(TaskError::from_validation_errors)`
— Ok when every length invariant holds, otherwise a single ValidationError
joining the per-field messages with "; ". -/
def Task.validate (t : Task) : Except TaskError Unit :=
  match t.validationErrors with
  | [] => .ok ()
  | es => .error (.validationError (String.intercalate "; " es))

/-- Task::new (src/task.rs): default fields, priority Medium, status Todo. -/
def Task.mkNew (id : String) (now : Nat) (title : String) : Task :=
  { id := id, title := title, description := none, priority := .medium,
    status := .todo, category := none, dueDate := none,
    createdAt := now, updatedAt := now, completedAt := none }

/-- Task::with_details (src/task.rs): all fields specified, status Todo. -/
def Task.with_details (id : String) (now : Nat) (title : String)
    (description : Option String) (priority : Priority)
    (category : Option String) (dueDate : Option Nat) : Task :=
  { id := id, title := title, description := description, priority := priority,
    status := .todo, category := category, dueDate := dueDate,
    createdAt := now, updatedAt := now, completedAt := none }

/-- Task::complete (src/task.rs): set status Done, record completion time,
stamp updated_at. -/
def Task.complete (t : Task) (now : Nat) : Task :=
  { t with status := .done, completedAt := some now, updatedAt := now }

/-- Task::start (src/task.rs): set status InProgress, stamp updated_at. -/
def Task.start (t : Task) (now : Nat) : Task :=
  { t with status := .inProgress, updatedAt := now }

/-- Task::cancel (src/task.rs): set status Cancelled, stamp updated_at. -/
def Task.cancel (t : Task) (now : Nat) : Task :=
  { t with status := .cancelled, updatedAt := now }

/-- Task::update (src/task.rs): optional replace for title/priority, tri-state
directive for description/category/due_date, then stamp updated_at. -/
def Task.update (t : Task) (title : Option String)
    (description : UpdateValue String) (priority : Option Priority)
    (category : UpdateValue String) (dueDate : UpdateValue Nat)
    (now : Nat) : Task :=
  let t1 := match title with
    | some s => { t with title := s }
    | none => t
  let t2 := match description with
    | .set d => { t1 with description := some d }
    | .clear => { t1 with description := none }
    | .keep => t1
  let t3 := match priority with
    | some p => { t2 with priority := p }
    | none => t2
  let t4 := match category with
    | .set c => { t3 with category := some c }
    | .clear => { t3 with category := none }
    | .keep => t3
  let t5 := match dueDate with
    | .set d => { t4 with dueDate := some d }
    | .clear => { t4 with dueDate := none }
    | .keep => t4
  { t5 with updatedAt := now }

/-- Task::is_overdue (src/task.rs): true iff a due date exists, the status is
not Done, and the current time is strictly past the due date. -/
def Task.is_overdue (t : Task) (now : Nat) : Bool :=
  match t.dueDate with
  | some d => !(t.status == .done) && decide (d < now)
  | none => false

/-- Association-list model of the `HashMap<String, Task>` store: lookup by
key, first binding wins (keys are kept unique by `Store.insert`). -/
def Store.get : List (String × Task) → String → Option Task
  | [], _ => none
  | (k, v) :: rest, id => if k = id then some v else Store.get rest id

/-- HashMap::contains_key. -/
def Store.contains (l : List (String × Task)) (id : String) : Bool :=
  (Store.get l id).isSome

/-- HashMap::insert — replaces the binding of an existing key, otherwise
appends a new binding. -/
def Store.insert : List (String × Task) → String → Task → List (String × Task)
  | [], k, v => [(k, v)]
  | (k', v') :: rest, k, v =>
    if k' = k then (k, v) :: rest else (k', v') :: Store.insert rest k v

/-- HashMap::remove modelled as delete-first-binding. -/
def Store.remove : List (String × Task) → String → List (String × Task)
  | [], _ => []
  | (k', v') :: rest, k =>
    if k' = k then rest else (k', v') :: Store.remove rest k

/-- The manager state (src/manager.rs, struct TaskManager): the keyed task
collection and the dirty flag.  The storage-path configuration takes no part
in the in-memory logic and is omitted. -/
structure TaskManager where
  tasks : List (String × Task)
  dirty : Bool
deriving DecidableEq, Repr

/-- TaskManager::with_config / ::new — empty store, dirty = false. -/
def TaskManager.empty : TaskManager :=
  { tasks := [], dirty := false }

/-- The values of the store in iteration order (`self.tasks.values()`). -/
def TaskManager.values (m : TaskManager) : List Task :=
  m.tasks.map Prod.snd

/-- TaskManager::get_task (src/manager.rs). -/
def TaskManager.get_task (m : TaskManager) (id : String) : Except TaskError Task :=
  match Store.get m.tasks id with
  | some t => .ok t
  | none => .error (.taskNotFound id)

/-- TaskManager::add_task_detailed (src/manager.rs): build the task, validate,
and only on success insert it and set the dirty flag.  The error path returns
before touching the store, so the state comes back unchanged. -/
def TaskManager.add_task_detailed (m : TaskManager) (id : String) (now : Nat)
    (title : String) (description : Option String) (priority : Option Priority)
    (category : Option String) (dueDate : Option Nat) :
    Except TaskError String × TaskManager :=
  let task := Task.with_details id now title description
    (priority.getD .medium) category dueDate
  match task.validate with
  | .error e => (.error e, m)
  | .ok _ =>
    (.ok id, { m with tasks := Store.insert m.tasks id task, dirty := true })

/-- TaskManager::update_task (src/manager.rs): look the task up, mutate it in
place through the `&mut` reference, then validate; on a validation failure the
`?` returns early, so the already-mutated task stays in the store and the
dirty flag is not set. -/
def TaskManager.update_task (m : TaskManager) (id : String) (now : Nat)
    (title : Option String) (description : UpdateValue String)
    (priority : Option Priority) (category : UpdateValue String)
    (dueDate : UpdateValue Nat) : Except TaskError Unit × TaskManager :=
  match Store.get m.tasks id with
  | none => (.error (.taskNotFound id), m)
  | some task =>
    let task := task.update title description priority category dueDate now
    let m1 : TaskManager := { m with tasks := Store.insert m.tasks id task }
    match task.validate with
    | .error e => (.error e, m1)
    | .ok _ => (.ok (), { m1 with dirty := true })

/-- TaskManager::delete_task (src/manager.rs). -/
def TaskManager.delete_task (m : TaskManager) (id : String) :
    Except TaskError Task × TaskManager :=
  match Store.get m.tasks id with
  | none => (.error (.taskNotFound id), m)
  | some task =>
    (.ok task, { m with tasks := Store.remove m.tasks id, dirty := true })

/-- TaskManager::complete_task (src/manager.rs): reject an already-Done task
with OperationNotAllowed, otherwise run Task::complete and set dirty. -/
def TaskManager.complete_task (m : TaskManager) (id : String) (now : Nat) :
    Except TaskError Unit × TaskManager :=
  match Store.get m.tasks id with
  | none => (.error (.taskNotFound id), m)
  | some task =>
    if task.status = .done then
      (.error (.operationNotAllowed "Task is already completed"), m)
    else
      (.ok (), { m with tasks := Store.insert m.tasks id (task.complete now), dirty := true })

/-- TaskManager::start_task (src/manager.rs): unconditional transition. -/
def TaskManager.start_task (m : TaskManager) (id : String) (now : Nat) :
    Except TaskError Unit × TaskManager :=
  match Store.get m.tasks id with
  | none => (.error (.taskNotFound id), m)
  | some task =>
    (.ok (), { m with tasks := Store.insert m.tasks id (task.start now), dirty := true })

/-- TaskManager::cancel_task (src/manager.rs): unconditional transition. -/
def TaskManager.cancel_task (m : TaskManager) (id : String) (now : Nat) :
    Except TaskError Unit × TaskManager :=
  match Store.get m.tasks id with
  | none => (.error (.taskNotFound id), m)
  | some task =>
    (.ok (), { m with tasks := Store.insert m.tasks id (task.cancel now), dirty := true })

/-- ASCII lowering of one character, modelling what `str::to_lowercase` does
on the ASCII range. -/
def lowerChar (c : Char) : Char :=
  if 'A' ≤ c && c ≤ 'Z' then Char.ofNat (c.toNat + 32) else c

/-- Lowering of a whole string, as a character list. -/
def lowerStr (s : List Char) : List Char :=
  s.map lowerChar

/-- Does the haystack begin with the needle? -/
def headMatch : List Char → List Char → Bool
  | [], _ => true
  | _ :: _, [] => false
  | a :: as, b :: bs => a == b && headMatch as bs

/-- Substring test (Rust `str::contains`): the needle begins at some position
of the haystack. -/
def containsSub (needle : List Char) : List Char → Bool
  | [] => headMatch needle []
  | c :: cs => headMatch needle (c :: cs) || containsSub needle cs

/-- TaskManager::search_tasks (src/manager.rs): case-insensitive substring
match of the query against the title, or against the description when one is
present. -/
def TaskManager.search_tasks (m : TaskManager) (query : String) : List Task :=
  let queryLower := lowerStr query.data
  m.values.filter fun task =>
    containsSub queryLower (lowerStr task.title.data)
    || (match task.description with
        | some d => containsSub queryLower (lowerStr d.data)
        | none => false)

/-- Sorting criteria (src/manager.rs, enum TaskSort). -/
inductive TaskSort where
  | createdAsc
  | createdDesc
  | dueDateAsc
  | dueDateDesc
  | priorityAsc
  | priorityDesc
  | titleAsc
  | titleDesc
deriving DecidableEq, Repr

/-- Insert into a sorted list keeping stability: the new element `a` (which
comes from earlier in the original order than everything in the list) is
placed before the first element not strictly below it. -/
def insertSorted (lt : Task → Task → Bool) (a : Task) : List Task → List Task
  | [] => [a]
  | b :: bs => if lt b a then b :: insertSorted lt a bs else a :: b :: bs

/-- Stable sort by a strict comparator, modelling Rust's stable
`slice::sort_by`/`sort_by_key` with `lt a b` standing for
"the comparator orders a before b (Ordering::Less)". -/
def sortByLt (lt : Task → Task → Bool) : List Task → List Task
  | [] => []
  | a :: as => insertSorted lt a (sortByLt lt as)

/-- The strict order of `sort_by_key(|t| t.due_date)`: the derived `Ord` on
`Option<DateTime>` puts `None` below every `Some`. -/
def dueDateAscLt (a b : Task) : Bool :=
  match a.dueDate, b.dueDate with
  | none, none => false
  | none, some _ => true
  | some _, none => false
  | some x, some y => decide (x < y)

/-- The explicit DueDateDesc comparator of get_sorted_tasks: between two
present dates compare reversed; a task with a date orders before one without
(Ordering::Less), a task without a date orders after one with. -/
def dueDateDescLt (a b : Task) : Bool :=
  match a.dueDate, b.dueDate with
  | some x, some y => decide (y < x)
  | some _, none => true
  | none, some _ => false
  | none, none => false

/-- TaskManager::get_sorted_tasks (src/manager.rs): collect the values and
stably sort them by the criterion's comparator. -/
def TaskManager.get_sorted_tasks (m : TaskManager) (s : TaskSort) : List Task :=
  match s with
  | .createdAsc => sortByLt (fun a b => decide (a.createdAt < b.createdAt)) m.values
  | .createdDesc => sortByLt (fun a b => decide (b.createdAt < a.createdAt)) m.values
  | .dueDateAsc => sortByLt dueDateAscLt m.values
  | .dueDateDesc => sortByLt dueDateDescLt m.values
  | .priorityAsc => sortByLt (fun a b => decide (a.priority.toNat < b.priority.toNat)) m.values
  | .priorityDesc => sortByLt (fun a b => decide (b.priority.toNat < a.priority.toNat)) m.values
  | .titleAsc => sortByLt (fun a b => decide (a.title < b.title)) m.values
  | .titleDesc => sortByLt (fun a b => decide (b.title < a.title)) m.values

/-- The loop body of TaskManager::import_tasks (src/manager.rs): validate each
task in turn (an invalid one aborts the loop, keeping the insertions already
made, as the `?` in the Rust loop does); a task whose id is already bound is
skipped, otherwise it is inserted and counted. -/
def importLoop : List Task → List (String × Task) → Nat →
    Except TaskError Nat × List (String × Task)
  | [], store, count => (.ok count, store)
  | task :: rest, store, count =>
    match task.validate with
    | .error e => (.error e, store)
    | .ok _ =>
      if Store.contains store task.id then
        importLoop rest store count
      else
        importLoop rest (Store.insert store task.id task) (count + 1)

/-- TaskManager::import_tasks (src/manager.rs): run the loop; the dirty flag
is set only when at least one task was imported, and is untouched on the
error path. -/
def TaskManager.import_tasks (m : TaskManager) (ts : List Task) :
    Except TaskError Nat × TaskManager :=
  match importLoop ts m.tasks 0 with
  | (.ok count, store) =>
    (.ok count, { m with tasks := store, dirty := if count > 0 then true else m.dirty })
  | (.error e, store) => (.error e, { m with tasks := store })

/-- What one call to TaskManager::save (src/manager.rs) does.  `save` takes
`&self`: it never alters the store; the model records whether the backend
write happened, what was written, and the value of the dirty flag when the
call returns (the body contains no store to `dirty`, so it is `m.dirty`). -/
structure SaveOutcome where
  wrote : Bool
  written : Option (List Task)
  dirtyAfter : Bool
deriving DecidableEq, Repr

/-- TaskManager::save (src/manager.rs): return immediately without writing
when the dirty flag is clear; otherwise serialize the collected values and
write them.  No branch modifies the dirty flag. -/
def TaskManager.save (m : TaskManager) : SaveOutcome :=
  if m.dirty = false then
    { wrote := false, written := none, dirtyAfter := m.dirty }
  else
    { wrote := true, written := some m.values, dirtyAfter := m.dirty }

/-! Concrete fixtures used by the closed theorems below. -/

/-- A stored, valid task used by several concrete scenarios. -/
def taskOrig1 : Task :=
  { id := "t1", title := "Original", description := none, priority := .medium,
    status := .todo, category := none, dueDate := none,
    createdAt := 0, updatedAt := 0, completedAt := none }

/-- A one-task manager holding `taskOrig1`, not dirty. -/
def mgrOne : TaskManager :=
  { tasks := [("t1", taskOrig1)], dirty := false }

/-- The same one-task manager with the dirty flag set. -/
def mgrOneDirty : TaskManager :=
  { tasks := [("t1", taskOrig1)], dirty := true }

/-- A valid task with a fresh id, for import scenarios. -/
def taskImpA : Task :=
  { id := "a", title := "Alpha", description := none, priority := .low,
    status := .todo, category := none, dueDate := none,
    createdAt := 1, updatedAt := 1, completedAt := none }

/-- An invalid task (empty title), for import scenarios. -/
def taskImpBad : Task :=
  { id := "b", title := "", description := none, priority := .low,
    status := .todo, category := none, dueDate := none,
    createdAt := 1, updatedAt := 1, completedAt := none }

/-- A task with a due date, for the sorting scenario. -/
def taskDueS : Task :=
  { id := "s", title := "With due", description := none, priority := .medium,
    status := .todo, category := none, dueDate := some 5,
    createdAt := 0, updatedAt := 0, completedAt := none }

/-- A task with no due date, for the sorting scenario. -/
def taskDueN : Task :=
  { id := "n", title := "No due", description := none, priority := .medium,
    status := .todo, category := none, dueDate := none,
    createdAt := 0, updatedAt := 0, completedAt := none }

/-- A manager holding one task with a due date and one without. -/
def mgrSortC3 : TaskManager :=
  { tasks := [("s", taskDueS), ("n", taskDueN)], dirty := false }

/-- A task already stored under id "a", for the duplicate-import scenario. -/
def taskStoredA : Task :=
  { id := "a", title := "Stored original", description := none, priority := .high,
    status := .inProgress, category := none, dueDate := none,
    createdAt := 0, updatedAt := 0, completedAt := none }

/-- A valid incoming task whose id duplicates the stored "a". -/
def taskDupA : Task :=
  { id := "a", title := "Incoming duplicate", description := none, priority := .low,
    status := .todo, category := none, dueDate := none,
    createdAt := 2, updatedAt := 2, completedAt := none }

/-- A valid incoming task with the fresh id "b2". -/
def taskFreshB : Task :=
  { id := "b2", title := "Incoming fresh", description := none, priority := .low,
    status := .todo, category := none, dueDate := none,
    createdAt := 2, updatedAt := 2, completedAt := none }

/-- The manager holding only `taskStoredA`, for the duplicate-import scenario. -/
def mgrImp8 : TaskManager :=
  { tasks := [("a", taskStoredA)], dirty := false }

/-- A stored task whose status is already Done. -/
def taskDoneD : Task :=
  { id := "d", title := "Already done", description := none, priority := .medium,
    status := .done, category := none, dueDate := none,
    createdAt := 0, updatedAt := 3, completedAt := some 3 }

/-- A manager holding one Done task and one Todo task. -/
def mgrC5 : TaskManager :=
  { tasks := [("d", taskDoneD), ("t1", taskOrig1)], dirty := false }

/-! Helper lemmas about the store. -/

/-- Looking up the key just inserted yields the inserted task. -/
theorem Store.get_insert_self (l : List (String × Task)) (k : String) (v : Task) :
    Store.get (Store.insert l k v) k = some v := by
  induction l with
  | nil => simp [Store.insert, Store.get]
  | cons p rest ih =>
    obtain ⟨k', v'⟩ := p
    by_cases h : k' = k
    · simp [Store.insert, h, Store.get]
    · simp [Store.insert, h, Store.get, ih]

/-- Inserting under one key leaves every other key's binding alone. -/
theorem Store.get_insert_ne (l : List (String × Task)) (k : String) (v : Task)
    (id : String) (h : k ≠ id) :
    Store.get (Store.insert l k v) id = Store.get l id := by
  induction l with
  | nil => simp [Store.insert, Store.get, h]
  | cons p rest ih =>
    obtain ⟨k', v'⟩ := p
    by_cases h' : k' = k
    · subst h'
      simp [Store.insert, Store.get, h]
    · simp [Store.insert, h', Store.get, ih]

/-- Inserting a key not yet bound grows the store by exactly one binding. -/
theorem Store.length_insert (l : List (String × Task)) (k : String) (v : Task)
    (h : Store.contains l k = false) :
    (Store.insert l k v).length = l.length + 1 := by
  induction l with
  | nil => simp [Store.insert]
  | cons p rest ih =>
    obtain ⟨k', v'⟩ := p
    by_cases h' : k' = k
    · exfalso
      rw [Store.contains, Store.get, if_pos h'] at h
      simp at h
    · rw [Store.contains, Store.get, if_neg h'] at h
      simp only [Store.insert, if_neg h', List.length_cons]
      rw [ih h]

/-! Helper lemmas about the substring test. -/

/-- The empty needle occurs in every haystack. -/
theorem containsSub_nil (hay : List Char) : containsSub [] hay = true := by
  cases hay with
  | nil => rfl
  | cons c cs => simp [containsSub, headMatch]

/-! Helper lemmas about the stable sort. -/

/-- Membership in an insertion: the new element or an old one. -/
theorem mem_insertSorted (lt : Task → Task → Bool) (a c : Task) (l : List Task)
    (h : c ∈ insertSorted lt a l) : c = a ∨ c ∈ l := by
  induction l with
  | nil =>
    simp [insertSorted] at h
    exact Or.inl h
  | cons b bs ih =>
    rw [insertSorted] at h
    by_cases hlt : lt b a = true
    · rw [if_pos hlt] at h
      rcases List.mem_cons.mp h with rfl | h'
      · exact Or.inr (List.mem_cons_self _ _)
      · rcases ih h' with h'' | h''
        · exact Or.inl h''
        · exact Or.inr (List.mem_cons_of_mem _ h'')
    · rw [if_neg hlt] at h
      rcases List.mem_cons.mp h with rfl | h'
      · exact Or.inl rfl
      · exact Or.inr h'

/-- Inserting into a list sorted by the comparator keeps it sorted, provided
the comparator is asymmetric and its complement is transitive. -/
theorem pairwise_insertSorted (lt : Task → Task → Bool)
    (hasym : ∀ x y, lt x y = true → lt y x = false)
    (hct : ∀ x y z, lt x y = false → lt y z = false → lt x z = false)
    (a : Task) (l : List Task)
    (hl : l.Pairwise fun x y => lt y x = false) :
    (insertSorted lt a l).Pairwise fun x y => lt y x = false := by
  induction l with
  | nil => simp [insertSorted]
  | cons b bs ih =>
    rw [List.pairwise_cons] at hl
    obtain ⟨hb, hbs⟩ := hl
    rw [insertSorted]
    by_cases hlt : lt b a = true
    · rw [if_pos hlt, List.pairwise_cons]
      refine ⟨?_, ih hbs⟩
      intro c hc
      rcases mem_insertSorted lt a c bs hc with rfl | h'
      · exact hasym b c hlt
      · exact hb c h'
    · rw [if_neg hlt, List.pairwise_cons]
      have hba : lt b a = false := by
        cases h : lt b a
        · rfl
        · exact absurd h hlt
      refine ⟨?_, List.pairwise_cons.mpr ⟨hb, hbs⟩⟩
      intro c hc
      rcases List.mem_cons.mp hc with rfl | h'
      · exact hba
      · exact hct c b a (hb c h') hba

/-- The stable sort orders the list by the comparator, provided the comparator
is asymmetric and its complement is transitive. -/
theorem pairwise_sortByLt (lt : Task → Task → Bool)
    (hasym : ∀ x y, lt x y = true → lt y x = false)
    (hct : ∀ x y z, lt x y = false → lt y z = false → lt x z = false)
    (l : List Task) :
    (sortByLt lt l).Pairwise fun x y => lt y x = false := by
  induction l with
  | nil => simp [sortByLt]
  | cons a as ih => exact pairwise_insertSorted lt hasym hct a (sortByLt lt as) ih

/-- The DueDateAsc key order is asymmetric. -/
theorem dueDateAscLt_asym (x y : Task) (h : dueDateAscLt x y = true) :
    dueDateAscLt y x = false := by
  unfold dueDateAscLt at h ⊢
  cases hx : x.dueDate <;> cases hy : y.dueDate <;> rw [hx, hy] at h <;> simp_all <;> omega

/-- The complement of the DueDateAsc key order is transitive. -/
theorem dueDateAscLt_ct (x y z : Task) (h1 : dueDateAscLt x y = false)
    (h2 : dueDateAscLt y z = false) : dueDateAscLt x z = false := by
  unfold dueDateAscLt at h1 h2 ⊢
  cases hx : x.dueDate <;> cases hy : y.dueDate <;> cases hz : z.dueDate <;>
    rw [hx, hy] at h1 <;> rw [hy, hz] at h2 <;> simp_all <;> omega

/-- The DueDateDesc comparator is asymmetric. -/
theorem dueDateDescLt_asym (x y : Task) (h : dueDateDescLt x y = true) :
    dueDateDescLt y x = false := by
  unfold dueDateDescLt at h ⊢
  cases hx : x.dueDate <;> cases hy : y.dueDate <;> rw [hx, hy] at h <;> simp_all <;> omega

/-- The complement of the DueDateDesc comparator is transitive. -/
theorem dueDateDescLt_ct (x y z : Task) (h1 : dueDateDescLt x y = false)
    (h2 : dueDateDescLt y z = false) : dueDateDescLt x z = false := by
  unfold dueDateDescLt at h1 h2 ⊢
  cases hx : x.dueDate <;> cases hy : y.dueDate <;> cases hz : z.dueDate <;>
    rw [hx, hy] at h1 <;> rw [hy, hz] at h2 <;> simp_all <;> omega

/-- Behavior of the import loop when every task of the list is valid: it
succeeds, the store grows by exactly the number counted, bindings already
present are never overwritten, and every listed id ends up bound. -/
theorem importLoop_spec (ts : List Task) :
    ∀ (store : List (String × Task)) (count : Nat),
    (∀ t ∈ ts, t.validationErrors = []) →
    ∃ k store2,
      importLoop ts store count = (.ok (count + k), store2)
      ∧ store2.length = store.length + k
      ∧ (∀ id, Store.contains store id = true →
          Store.get store2 id = Store.get store id)
      ∧ (∀ t ∈ ts, Store.contains store2 t.id = true) := by
  induction ts with
  | nil =>
    intro store count _
    exact ⟨0, store, by simp [importLoop], by simp, fun id _ => rfl, by simp⟩
  | cons t rest ih =>
    intro store count h
    have ht : t.validationErrors = [] := h t (List.mem_cons_self t rest)
    have hrest : ∀ u ∈ rest, u.validationErrors = [] :=
      fun u hu => h u (List.mem_cons_of_mem t hu)
    have hval : t.validate = .ok () := by
      unfold Task.validate
      rw [ht]
    by_cases hc : Store.contains store t.id = true
    · obtain ⟨k, store2, heq, hlen, hpres, hmem⟩ := ih store count hrest
      refine ⟨k, store2, ?_, hlen, hpres, ?_⟩
      · rw [importLoop, hval, if_pos hc, heq]
      · intro u hu
        rcases List.mem_cons.mp hu with rfl | hu'
        · rw [Store.contains, hpres u.id hc]
          exact hc
        · exact hmem u hu'
    · have hc' : Store.contains store t.id = false := by
        cases hcv : Store.contains store t.id
        · rfl
        · exact absurd hcv hc
      obtain ⟨k, store2, heq, hlen, hpres, hmem⟩ :=
        ih (Store.insert store t.id t) (count + 1) hrest
      have hcount : count + 1 + k = count + (k + 1) := by omega
      refine ⟨k + 1, store2, ?_, ?_, ?_, ?_⟩
      · rw [importLoop, hval, if_neg hc, heq, hcount]
      · rw [hlen, Store.length_insert store t.id t hc']
        omega
      · intro id hid
        have hne : t.id ≠ id := by
          intro e
          rw [e] at hc'
          rw [hc'] at hid
          exact Bool.false_ne_true hid
        have h1 : Store.contains (Store.insert store t.id t) id = true := by
          rw [Store.contains, Store.get_insert_ne store t.id t id hne]
          exact hid
        rw [hpres id h1, Store.get_insert_ne store t.id t id hne]
      · intro u hu
        rcases List.mem_cons.mp hu with rfl | hu'
        · have h1 : Store.contains (Store.insert store u.id u) u.id = true := by
            rw [Store.contains, Store.get_insert_self]
            rfl
          rw [Store.contains, hpres u.id h1]
          exact h1
        · exact hmem u hu'

/-- Claim C1 (code bug): the claim says a failed re-validation must leave the
stored task unchanged, but update_task mutates the stored task in place and
validates afterwards.  At a concrete store holding a valid task "t1" titled
"Original", updating with an empty title returns a ValidationError, yet the
task retained in the store now carries the invalid empty title. -/
theorem C1_update_retains_invalid :
    (TaskManager.update_task mgrOne "t1" 7 (some "") .keep none .keep .keep).1
      = .error (.validationError "title: Title must be between 1-200 characters")
  ∧ Store.get (TaskManager.update_task mgrOne "t1" 7 (some "") .keep none .keep .keep).2.tasks "t1"
      = some { taskOrig1 with title := "", updatedAt := 7 } :=
  ⟨rfl, rfl⟩

/-- Claim C2 (code bug): the claim says an import containing an invalid task
fails with no task inserted, but import_tasks validates and inserts item by
item.  Importing a valid task "a" followed by an invalid one (empty title)
into an empty store returns a ValidationError, yet "a" has been inserted. -/
theorem C2_import_partially_inserts :
    (TaskManager.import_tasks TaskManager.empty [taskImpA, taskImpBad]).1
      = .error (.validationError "title: Title must be between 1-200 characters")
  ∧ Store.get (TaskManager.import_tasks TaskManager.empty [taskImpA, taskImpBad]).2.tasks "a"
      = some taskImpA :=
  ⟨rfl, rfl⟩

/-- Claim C4 (code bug): save performs no write when the dirty flag is false
(the first conjunct, which matches the claim), but a successful save does not
clear the dirty flag — after saving a dirty manager the flag is still true,
so a repeated save with no intervening mutation writes again. -/
theorem C4_save_leaves_dirty :
    (TaskManager.save mgrOne).wrote = false
  ∧ (TaskManager.save mgrOneDirty).wrote = true
  ∧ (TaskManager.save mgrOneDirty).dirtyAfter = true :=
  ⟨rfl, rfl, rfl⟩

/-- Claim C3, counterexample: on a store with one task with a due date and one
without, sorted(DueDateAsc) places the task with no due date FIRST (the
derived Option order used by sort_by_key puts None below every Some), so the
claim that both due-date sorts place absent due dates last is false. -/
theorem C3_counterexample_asc :
    TaskManager.get_sorted_tasks mgrSortC3 .dueDateAsc = [taskDueN, taskDueS]
  ∧ taskDueN.dueDate = none
  ∧ taskDueS.dueDate = some 5
  ∧ ¬ ((TaskManager.get_sorted_tasks mgrSortC3 .dueDateAsc).Pairwise
        fun a b => a.dueDate = none → b.dueDate = none) := by
  refine ⟨rfl, rfl, rfl, ?_⟩
  intro h
  rw [show TaskManager.get_sorted_tasks mgrSortC3 .dueDateAsc = [taskDueN, taskDueS] from rfl] at h
  have h1 := (List.pairwise_cons.mp h).1 taskDueS (List.mem_cons_self _ _)
  have h3 := h1 rfl
  simp [taskDueS] at h3

/-- Claim C3, amended: sorted(DueDateDesc) places every task with no due date
after all tasks with a due date, while sorted(DueDateAsc) places every task
with no due date BEFORE all tasks with a due date; among tasks with due dates,
DueDateAsc orders them ascending and DueDateDesc descending. -/
theorem C3_due_date_sort_order (m : TaskManager) :
    ((TaskManager.get_sorted_tasks m .dueDateAsc).Pairwise
      fun a b => b.dueDate = none → a.dueDate = none)
  ∧ ((TaskManager.get_sorted_tasks m .dueDateDesc).Pairwise
      fun a b => a.dueDate = none → b.dueDate = none)
  ∧ ((TaskManager.get_sorted_tasks m .dueDateAsc).Pairwise
      fun a b => ∀ x y, a.dueDate = some x → b.dueDate = some y → x ≤ y)
  ∧ ((TaskManager.get_sorted_tasks m .dueDateDesc).Pairwise
      fun a b => ∀ x y, a.dueDate = some x → b.dueDate = some y → y ≤ x) := by
  have hAsc := pairwise_sortByLt dueDateAscLt dueDateAscLt_asym dueDateAscLt_ct m.values
  have hDesc := pairwise_sortByLt dueDateDescLt dueDateDescLt_asym dueDateDescLt_ct m.values
  have eAsc : TaskManager.get_sorted_tasks m .dueDateAsc = sortByLt dueDateAscLt m.values := rfl
  have eDesc : TaskManager.get_sorted_tasks m .dueDateDesc = sortByLt dueDateDescLt m.values := rfl
  refine ⟨?_, ?_, ?_, ?_⟩
  · rw [eAsc]
    refine hAsc.imp ?_
    intro a b hab hbn
    unfold dueDateAscLt at hab
    rw [hbn] at hab
    cases ha : a.dueDate with
    | none => rfl
    | some d =>
      rw [ha] at hab
      simp at hab
  · rw [eDesc]
    refine hDesc.imp ?_
    intro a b hab han
    unfold dueDateDescLt at hab
    rw [han] at hab
    cases hb : b.dueDate with
    | none => rfl
    | some d =>
      rw [hb] at hab
      simp at hab
  · rw [eAsc]
    refine hAsc.imp ?_
    intro a b hab x y hax hby
    unfold dueDateAscLt at hab
    rw [hby, hax] at hab
    simp at hab
    omega
  · rw [eDesc]
    refine hDesc.imp ?_
    intro a b hab x y hax hby
    unfold dueDateDescLt at hab
    rw [hby, hax] at hab
    simp at hab
    omega

/-- Claim C5: complete_task on a stored task that is already Done fails with
OperationNotAllowed and leaves the whole manager (hence the task's status and
completed_at) unchanged; on a stored task that is not Done it succeeds, and
the stored task afterwards has status Done, completed_at set to the current
time, and updated_at stamped. -/
theorem C5_complete_guard (m : TaskManager) (id : String) (now : Nat) (task : Task)
    (h : Store.get m.tasks id = some task) :
    (task.status = .done →
      TaskManager.complete_task m id now
        = (.error (.operationNotAllowed "Task is already completed"), m))
  ∧ (task.status ≠ .done →
      (TaskManager.complete_task m id now).1 = .ok ()
      ∧ Store.get (TaskManager.complete_task m id now).2.tasks id
        = some { task with status := .done, completedAt := some now, updatedAt := now }
      ∧ (TaskManager.complete_task m id now).2.dirty = true) := by
  constructor
  · intro hd
    simp only [TaskManager.complete_task, h, if_pos hd]
  · intro hd
    refine ⟨?_, ?_, ?_⟩
    · simp only [TaskManager.complete_task, h, if_neg hd]
    · simp only [TaskManager.complete_task, h, if_neg hd]
      rw [Store.get_insert_self]
      rfl
    · simp only [TaskManager.complete_task, h, if_neg hd]

/-- Witness for C5 at a concrete store: completing the Done task "d" fails
with OperationNotAllowed and changes nothing; completing the Todo task "t1"
succeeds. -/
theorem C5_complete_guard_witness :
    (TaskManager.complete_task mgrC5 "d" 9
      = (.error (.operationNotAllowed "Task is already completed"), mgrC5))
  ∧ (TaskManager.complete_task mgrC5 "t1" 9).1 = .ok () := by
  constructor
  · exact (C5_complete_guard mgrC5 "d" 9 taskDoneD rfl).1 rfl
  · exact ((C5_complete_guard mgrC5 "t1" 9 taskOrig1 rfl).2 (by decide)).1

/-- Claim C6: add_task_detailed with a title of 1 to 200 characters (and
description at most 2000, category at most 50 characters when present)
succeeds and inserts the constructed task, setting the dirty flag; with a
title of length 0 or at least 201 it fails with a ValidationError and returns
the manager unchanged (no partially-invalid task stored, count unaffected). -/
theorem C6_add_validation (m : TaskManager) (id : String) (now : Nat)
    (title : String) (description : Option String) (priority : Option Priority)
    (category : Option String) (dueDate : Option Nat) :
    ((1 ≤ title.length ∧ title.length ≤ 200
        ∧ (∀ d, description = some d → d.length ≤ 2000)
        ∧ (∀ c, category = some c → c.length ≤ 50)) →
      TaskManager.add_task_detailed m id now title description priority category dueDate
        = (.ok id, { m with
            tasks := Store.insert m.tasks id
              (Task.with_details id now title description (priority.getD .medium) category dueDate),
            dirty := true }))
  ∧ ((title.length = 0 ∨ 201 ≤ title.length) →
      (∃ msg, (TaskManager.add_task_detailed m id now title description priority category dueDate).1
          = .error (.validationError msg))
      ∧ (TaskManager.add_task_detailed m id now title description priority category dueDate).2 = m) := by
  constructor
  · rintro ⟨h1, h2, h3, h4⟩
    have hv : (Task.with_details id now title description (priority.getD .medium)
        category dueDate).validationErrors = [] := by
      simp only [Task.validationErrors, Task.with_details]
      rw [if_neg (by simp; omega)]
      cases description with
      | none =>
        cases category with
        | none => rfl
        | some c =>
          have hc : ¬ (c.length > 50) := by
            have := h4 c rfl
            omega
          simp [hc]
      | some d =>
        have hdl : ¬ (d.length > 2000) := by
          have := h3 d rfl
          omega
        cases category with
        | none => simp [hdl]
        | some c =>
          have hc : ¬ (c.length > 50) := by
            have := h4 c rfl
            omega
          simp [hdl, hc]
    have hval : (Task.with_details id now title description (priority.getD .medium)
        category dueDate).validate = .ok () := by
      unfold Task.validate
      rw [hv]
    simp only [TaskManager.add_task_detailed, hval]
  · intro hb
    have ht : (decide (title.length < 1) || decide (title.length > 200)) = true := by
      rcases hb with hbz | hbl <;> simp <;> omega
    have hcons : ∃ es, (Task.with_details id now title description (priority.getD .medium)
        category dueDate).validationErrors
          = "title: Title must be between 1-200 characters" :: es := by
      simp only [Task.validationErrors, Task.with_details]
      rw [if_pos ht]
      exact ⟨_, rfl⟩
    obtain ⟨es, hes⟩ := hcons
    have hval : (Task.with_details id now title description (priority.getD .medium)
        category dueDate).validate
          = .error (.validationError (String.intercalate "; "
              ("title: Title must be between 1-200 characters" :: es))) := by
      unfold Task.validate
      rw [hes]
    constructor
    · exact ⟨String.intercalate "; " ("title: Title must be between 1-200 characters" :: es),
        by simp only [TaskManager.add_task_detailed, hval]⟩
    · simp only [TaskManager.add_task_detailed, hval]

/-- Witness for C6: adding "Buy milk" to the empty manager succeeds and
inserts it; adding an empty title fails and leaves the manager unchanged. -/
theorem C6_add_validation_witness :
    TaskManager.add_task_detailed TaskManager.empty "x" 3 "Buy milk" none none none none
      = (.ok "x", { TaskManager.empty with
          tasks := Store.insert TaskManager.empty.tasks "x"
            (Task.with_details "x" 3 "Buy milk" none .medium none none),
          dirty := true })
  ∧ (TaskManager.add_task_detailed TaskManager.empty "y" 3 "" none none none none).2
      = TaskManager.empty := by
  constructor
  · exact (C6_add_validation TaskManager.empty "x" 3 "Buy milk" none none none none).1
      ⟨by decide, by decide, by simp, by simp⟩
  · exact ((C6_add_validation TaskManager.empty "y" 3 "" none none none none).2
      (Or.inl rfl)).2

/-- Claim C7: is_overdue is false whenever the task has no due date, false
whenever the status is Done regardless of due date, and true exactly when a
due date is present, the status is not Done, and the due date is strictly
before the current time (so e.g. a Cancelled task with a past due date reads
as overdue). -/
theorem C7_is_overdue_iff (t : Task) (now : Nat) :
    (t.dueDate = none → t.is_overdue now = false)
  ∧ (t.status = .done → t.is_overdue now = false)
  ∧ (t.is_overdue now = true
      ↔ ∃ d, t.dueDate = some d ∧ t.status ≠ .done ∧ d < now) := by
  refine ⟨?_, ?_, ?_⟩
  · intro h
    unfold Task.is_overdue
    rw [h]
  · intro h
    unfold Task.is_overdue
    rw [h]
    cases t.dueDate <;> simp
  · unfold Task.is_overdue
    cases hd : t.dueDate with
    | none => simp
    | some d => simp [hd]

/-- Claim C8: importing a list of valid tasks succeeds; every id already
bound in the store keeps its previously stored task unchanged (duplicates are
skipped, not overwritten, and not counted), the store grows by exactly the
returned count, and every listed id is bound afterwards. -/
theorem C8_import_valid (m : TaskManager) (ts : List Task)
    (h : ∀ t ∈ ts, t.validationErrors = []) :
    ∃ k,
      (TaskManager.import_tasks m ts).1 = .ok k
      ∧ (TaskManager.import_tasks m ts).2.tasks.length = m.tasks.length + k
      ∧ (∀ id, Store.contains m.tasks id = true →
          Store.get (TaskManager.import_tasks m ts).2.tasks id = Store.get m.tasks id)
      ∧ (∀ t ∈ ts, Store.contains (TaskManager.import_tasks m ts).2.tasks t.id = true) := by
  obtain ⟨k, store2, heq, hlen, hpres, hmem⟩ := importLoop_spec ts m.tasks 0 h
  rw [Nat.zero_add] at heq
  refine ⟨k, ?_, ?_, ?_, ?_⟩
  · simp only [TaskManager.import_tasks, heq]
  · simp only [TaskManager.import_tasks, heq]
    exact hlen
  · intro id hid
    simp only [TaskManager.import_tasks, heq]
    exact hpres id hid
  · intro t ht
    simp only [TaskManager.import_tasks, heq]
    exact hmem t ht

/-- Witness for C8, mirroring the spec's own example: importing one valid
duplicate of the stored task "a" and one valid fresh task "b2" into a
one-task store; the theorem applied here yields the import's guarantees at
this input, and the store's size and the preserved binding are then read off. -/
theorem C8_import_valid_witness :
    (∀ t ∈ [taskDupA, taskFreshB], t.validationErrors = [])
  ∧ (∃ k,
      (TaskManager.import_tasks mgrImp8 [taskDupA, taskFreshB]).1 = .ok k
      ∧ (TaskManager.import_tasks mgrImp8 [taskDupA, taskFreshB]).2.tasks.length
          = mgrImp8.tasks.length + k
      ∧ (∀ id, Store.contains mgrImp8.tasks id = true →
          Store.get (TaskManager.import_tasks mgrImp8 [taskDupA, taskFreshB]).2.tasks id
            = Store.get mgrImp8.tasks id)
      ∧ (∀ t ∈ [taskDupA, taskFreshB],
          Store.contains (TaskManager.import_tasks mgrImp8 [taskDupA, taskFreshB]).2.tasks t.id
            = true)) :=
  ⟨by decide, C8_import_valid mgrImp8 [taskDupA, taskFreshB] (by decide)⟩

/-- Claim C9: completed_at is set (to the current time) exactly by complete,
and no other entity operation touches it: start, cancel and update all leave
completed_at unchanged, so a formerly-Done task keeps its stale completion
timestamp. -/
theorem C9_completed_at_frame (t : Task) (now : Nat) (title : Option String)
    (description : UpdateValue String) (priority : Option Priority)
    (category : UpdateValue String) (dueDate : UpdateValue Nat) :
    (t.complete now).completedAt = some now
  ∧ (t.start now).completedAt = t.completedAt
  ∧ (t.cancel now).completedAt = t.completedAt
  ∧ (Task.update t title description priority category dueDate now).completedAt
      = t.completedAt := by
  refine ⟨rfl, rfl, rfl, ?_⟩
  unfold Task.update
  cases title <;> cases description <;> cases priority <;> cases category <;>
    cases dueDate <;> rfl

/-- Claim C10: searching with the empty string returns every task in the
store, because the empty string is a (case-insensitive) substring of every
title, whether or not a description is present. -/
theorem C10_search_empty (m : TaskManager) :
    TaskManager.search_tasks m "" = m.values := by
  have hq : lowerStr "".data = [] := rfl
  show (m.values.filter fun task =>
      containsSub (lowerStr "".data) (lowerStr task.title.data)
      || (match task.description with
          | some d => containsSub (lowerStr "".data) (lowerStr d.data)
          | none => false)) = m.values
  refine List.filter_eq_self.mpr ?_
  intro a _
  show (containsSub (lowerStr "".data) (lowerStr a.title.data)
      || (match a.description with
          | some d => containsSub (lowerStr "".data) (lowerStr d.data)
          | none => false)) = true
  rw [hq, containsSub_nil, Bool.true_or]

end TaskMgr
